import Mathlib

/-!
Verification of the bledom-controller agent (Go) against its natural-language
specification.  The Go sources are shallowly embedded: every definition below
mirrors a concrete function of the repository (file and function named in its
doc comment), with Go maps rendered as association lists, Go channels as
explicit queues, and the effects of a handler rendered as an explicit list of
actions.  Machine integers are modelled as Int (Go int never overflows on the
8-bit colour values involved here).
-/

set_option maxRecDepth 8192

namespace Bledom

/-- GoVal mirrors the dynamic values stored in a Go map[string]interface\x7b\x7d
payload: booleans, numbers (float64 from JSON, or int), and strings. -/
inductive GoVal where
  | vBool (b : Bool)
  | vNum (n : Int)
  | vStr (s : String)
  | vInt16 (n : Int)
  deriving DecidableEq, Repr

/-- Payload mirrors the Go type map[string]interface\x7b\x7d used for command
and event payloads: an association list from key to dynamic value. -/
def Payload := List (String × GoVal)

instance : DecidableEq Payload := by
  unfold Payload
  infer_instance

instance : Repr Payload := by
  unfold Payload
  infer_instance

/-- lookupVal mirrors the Go map read payload[key]: the first binding wins. -/
def lookupVal : Payload → String → Option GoVal
  | [], _ => none
  | (k, v) :: rest, key => if k = key then some v else lookupVal rest key

/-- getBool mirrors the Go checked type assertion payload[key].(bool). -/
def getBool (p : Payload) (key : String) : Option Bool :=
  match lookupVal p key with
  | some (GoVal.vBool b) => some b
  | _ => none

/-- getNum mirrors the Go checked type assertion payload[key].(float64)
followed by the int(...) conversion, as used throughout Agent.handleCommand. -/
def getNum (p : Payload) (key : String) : Option Int :=
  match lookupVal p key with
  | some (GoVal.vNum n) => some n
  | _ => none

/-- getStr mirrors the Go checked type assertion payload[key].(string). -/
def getStr (p : Payload) (key : String) : Option String :=
  match lookupVal p key with
  | some (GoVal.vStr s) => some s
  | _ => none

/-- getInt16 mirrors the Go checked type assertion payload[key].(int16), used
for the rssi field of connection events. -/
def getInt16 (p : Payload) (key : String) : Option Int :=
  match lookupVal p key with
  | some (GoVal.vInt16 n) => some n
  | _ => none

/-- CoreState mirrors struct State of internal/core/state.go: the single
authoritative snapshot of device and runtime intent. -/
structure CoreState where
  isConnected : Bool
  rssi : Int
  power : Bool
  colorR : Int
  colorG : Int
  colorB : Int
  brightness : Int
  speed : Int
  runningPattern : String
  deriving DecidableEq, Repr

/-- coreNewState mirrors core.NewState() of internal/core/state.go, which
returns &State\x7b\x7d: every field takes its Go zero value. -/
def coreNewState : CoreState :=
  { isConnected := false
    rssi := 0
    power := false
    colorR := 0
    colorG := 0
    colorB := 0
    brightness := 0
    speed := 0
    runningPattern := "" }

/-- BleDeviceState mirrors struct State of internal/ble/bledom.go: the BLE
controller's logical mirror of the strip state. -/
structure BleDeviceState where
  isOn : Bool
  r : Int
  g : Int
  b : Int
  brightness : Int
  speed : Int
  deriving DecidableEq, Repr

/-- bleInitialState mirrors the state literal inside ble.NewController of
internal/ble/bledom.go: IsOn false, R G B 255, Brightness 100, Speed 50. -/
def bleInitialState : BleDeviceState :=
  { isOn := false, r := 255, g := 255, b := 255, brightness := 100, speed := 50 }

/-- EventType mirrors core.EventType of internal/core (StateChanged,
DeviceConnected, PatternChanged, PowerChanged, ColorChanged). -/
inductive EventType where
  | stateChanged
  | deviceConnected
  | patternChanged
  | powerChanged
  | colorChanged
  deriving DecidableEq, Repr

/-- CommandType mirrors core.CommandType of internal/core/command.go. -/
inductive CommandType where
  | setPower
  | setColor
  | setBrightness
  | setSpeed
  | setHardwarePattern
  | syncTime
  | setRgbOrder
  | runPattern
  | stopPattern
  deriving DecidableEq, Repr

/-- Command mirrors core.Command: a command type together with its dynamic
payload map. -/
structure Command where
  type : CommandType
  payload : Payload

/-- hexDigitUpper renders one hex digit in upper case, as Go fmt %02X does. -/
def hexDigitUpper (m : Nat) : Char :=
  if m < 10 then Char.ofNat (48 + m) else Char.ofNat (55 + m)

/-- hexByteUpper renders a byte as two upper-case hex digits (Go fmt %02X for
values in 0..255). -/
def hexByteUpper (n : Nat) : List Char :=
  [hexDigitUpper ((n / 16) % 16), hexDigitUpper (n % 16)]

/-- hexColorString mirrors fmt.Sprintf("#%02X%02X%02X", r, g, b) on colour
components in 0..255 (negative values do not arise in the modelled flows). -/
def hexColorString (r g b : Int) : String :=
  String.mk ('#' :: (hexByteUpper r.toNat ++ hexByteUpper g.toNat ++ hexByteUpper b.toNat))

/-- Action records the externally visible effects of one orchestrator step:
calls into the Lua engine, calls into the BLE controller, and events
published on the bus. -/
inductive Action where
  | stopLua
  | runLua (name : String)
  | blePower (isOn : Bool)
  | bleColor (r g b : Int)
  | bleBrightness (v : Int)
  | bleSpeed (v : Int)
  | bleHardware (id : Int)
  | bleSyncTime
  | bleRgbOrder (v1 v2 v3 : Int)
  | publish (t : EventType) (p : Payload)
  | syncState
  deriving DecidableEq, Repr

/-- handleCommand mirrors Agent.handleCommand of internal/agent/agent.go
(current revision, the event-bus architecture), restricted to the command
kinds the claims are about.  Each branch extracts payload fields with the
same checked type assertions and defaults as the Go code, updates the cloned
state, and emits the same engine calls, BLE calls and bus publishes in the
same order. -/
def handleCommand (st : CoreState) (cmd : Command) : CoreState × List Action :=
  match cmd.type with
  | CommandType.setPower =>
      let isOn := (getBool cmd.payload "isOn").getD false
      let stops := if st.power = isOn then [] else [Action.stopLua]
      ({ st with power := isOn },
        stops ++ [Action.blePower isOn,
          Action.publish EventType.powerChanged [("isOn", GoVal.vBool isOn)]])
  | CommandType.setColor =>
      let r := (getNum cmd.payload "r").getD 0
      let g := (getNum cmd.payload "g").getD 0
      let b := (getNum cmd.payload "b").getD 0
      let stops :=
        if st.colorR = r ∧ st.colorG = g ∧ st.colorB = b then []
        else [Action.stopLua]
      ({ st with colorR := r, colorG := g, colorB := b },
        stops ++ [Action.bleColor r g b,
          Action.publish EventType.colorChanged
            [("r", GoVal.vNum r), ("g", GoVal.vNum g), ("b", GoVal.vNum b),
             ("hex", GoVal.vStr (hexColorString r g b))]])
  | CommandType.setBrightness =>
      let v := (getNum cmd.payload "value").getD 100
      ({ st with brightness := v },
        [Action.bleBrightness v,
         Action.publish EventType.stateChanged [("brightness", GoVal.vNum v)]])
  | CommandType.setSpeed =>
      let v := (getNum cmd.payload "value").getD 50
      ({ st with speed := v },
        [Action.bleSpeed v,
         Action.publish EventType.stateChanged [("speed", GoVal.vNum v)]])
  | CommandType.setHardwarePattern =>
      let id := (getNum cmd.payload "id").getD 0
      (st, [Action.stopLua, Action.bleHardware id])
  | CommandType.syncTime =>
      (st, [Action.bleSyncTime])
  | CommandType.setRgbOrder =>
      let v1 := (getNum cmd.payload "v1").getD 0
      let v2 := (getNum cmd.payload "v2").getD 0
      let v3 := (getNum cmd.payload "v3").getD 0
      (st, [Action.bleRgbOrder v1 v2 v3])
  | CommandType.runPattern =>
      let name := (getStr cmd.payload "name").getD ""
      (st, [Action.runLua name])
  | CommandType.stopPattern =>
      (st, [Action.stopLua])

/-- enginePatternPayload mirrors the payload the Lua engine publishes on a
PatternChangedEvent in Engine.execute of internal/lua/engine.go (current
revision): map[string]interface\x7b\x7d\x7b"pattern": name\x7d.  On entry the
name is the script name; the deferred publish on any exit uses "". -/
def enginePatternPayload (name : String) : Payload :=
  [("pattern", GoVal.vStr name)]

/-- bleConnectedPayload mirrors Controller.publishConnection of
internal/ble/bledom.go: a DeviceConnectedEvent whose payload carries
"connected" (bool) and "rssi" (int16). -/
def bleConnectedPayload (connected : Bool) (rssi : Int) : Payload :=
  [("connected", GoVal.vBool connected), ("rssi", GoVal.vInt16 rssi)]

/-- listenDeviceConnected mirrors the DeviceConnectedEvent branch of
Agent.listenEvents in internal/agent/agent.go: both type assertions must
succeed, the connection fields are stored, and when the link goes from down
to up with a non-empty runningPattern the pattern is dispatched to the Lua
engine via RunPattern. -/
def listenDeviceConnected (st : CoreState) (p : Payload) : CoreState × List Action :=
  match getBool p "connected" with
  | none => (st, [])
  | some connected =>
    match getInt16 p "rssi" with
    | none => (st, [])
    | some rssi =>
      let wasConnected := st.isConnected
      let st1 := { st with isConnected := connected, rssi := rssi }
      if ¬wasConnected ∧ connected ∧ st.runningPattern ≠ "" then
        (st1, [Action.runLua st.runningPattern])
      else
        (st1, [])

/-- listenPatternChanged mirrors the PatternChangedEvent branch of
Agent.listenEvents in internal/agent/agent.go: the checked type assertion
payload["running"].(string) must succeed; then the running pattern is stored
and, when it is the empty string, syncState is invoked. -/
def listenPatternChanged (st : CoreState) (p : Payload) : CoreState × List Action :=
  match getStr p "running" with
  | none => (st, [])
  | some pat =>
    ({ st with runningPattern := pat },
      if pat = "" then [Action.syncState] else [])

/-- EngCmd mirrors engineCmd of internal/lua/engine.go (current revision):
the three dispatcher commands cmdRunFile, cmdRunString and cmdStop, with
name and code/path payloads. -/
inductive EngCmd where
  | runFile (name path : String)
  | runString (name code : String)
  | stop
  deriving DecidableEq, Repr

/-- EngAction records the externally visible effects of one iteration of the
engine dispatcher: cancelling a token, waiting for the script with the given
bound in milliseconds, and spawning an interpreter bound to a token. -/
inductive EngAction where
  | cancel (tok : Nat)
  | waitDone (boundMs : Nat)
  | spawn (tok : Nat) (cmd : EngCmd)
  deriving DecidableEq, Repr

/-- LoopState models the local state of Engine.runLoop of
internal/lua/engine.go: the cancellation token of the currently running
script if any (currentCancel/scriptDone), plus a counter supplying fresh
token identities for context.WithCancel. -/
structure LoopState where
  running : Option Nat
  nextTok : Nat
  deriving DecidableEq, Repr

/-- engineStep mirrors one iteration of Engine.runLoop of
internal/lua/engine.go: on any received command the dispatcher first cancels
the current script token (if one exists) and waits up to 2 seconds for it to
finish; a stop command then does nothing more, while a run command creates a
fresh cancellation token and spawns the interpreter goroutine bound to it. -/
def engineStep (s : LoopState) (cmd : EngCmd) : LoopState × List EngAction :=
  let pre : List EngAction :=
    match s.running with
    | some t => [EngAction.cancel t, EngAction.waitDone 2000]
    | none => []
  match cmd with
  | EngCmd.stop => ({ running := none, nextTok := s.nextTok }, pre)
  | c =>
      ({ running := some s.nextTok, nextTok := s.nextTok + 1 },
        pre ++ [EngAction.spawn s.nextTok c])

/-- loopWF states the token-freshness invariant of the runLoop model: the
running token, if any, was drawn from the fresh-token counter. -/
def loopWF (s : LoopState) : Prop :=
  ∀ t, s.running = some t → t < s.nextTok

/-- WriterState models the state visible to one iteration of
Controller.commandWriterLoop of internal/ble/bledom.go: whether the write
characteristic handle is currently set (it is zeroed while the link is down
or reconnecting), whether a physical write would fail, and the pending frame
queue (commandChan). -/
structure WriterState where
  charPresent : Bool
  writeFails : Bool
  queue : List (List Nat)
  deriving DecidableEq, Repr

/-- WAction records the externally visible effects of one iteration of the
BLE command writer: awaiting a rate-limiter token, a successful or failed
characteristic write, and signalling disconnect to the supervision loop. -/
inductive WAction where
  | waitToken
  | writeOk (f : List Nat)
  | writeFailed (f : List Nat)
  | signalDisconnect
  deriving DecidableEq, Repr

/-- writerStep mirrors one iteration of Controller.commandWriterLoop of
internal/ble/bledom.go (current revision): the head frame is received from
commandChan, a rate-limiter token is awaited, then if the characteristic is
zero the iteration continues (the frame is gone), otherwise the write is
attempted and a failure triggers signalDisconnect. -/
def writerStep (s : WriterState) : WriterState × List WAction :=
  match s.queue with
  | [] => (s, [])
  | f :: rest =>
    if s.charPresent = false then
      ({ s with queue := rest }, [WAction.waitToken])
    else if s.writeFails then
      ({ s with queue := rest },
        [WAction.waitToken, WAction.writeFailed f, WAction.signalDisconnect])
    else
      ({ s with queue := rest }, [WAction.waitToken, WAction.writeOk f])

/-- writerEnqueue mirrors Controller.Write of internal/ble/bledom.go: the
frame is queued if the channel (capacity 2 x burst) has room, else dropped. -/
def writerEnqueue (capacity : Nat) (s : WriterState) (f : List Nat) : WriterState :=
  if s.queue.length < capacity then { s with queue := s.queue ++ [f] } else s

/-- isHexDigitChar recognises the characters the Go fmt verb %x scans. -/
def isHexDigitChar (c : Char) : Bool :=
  (48 ≤ c.toNat ∧ c.toNat ≤ 57) ∨ (97 ≤ c.toNat ∧ c.toNat ≤ 102) ∨
    (65 ≤ c.toNat ∧ c.toNat ≤ 70)

/-- hexValChar gives the value of a hex digit character (either case). -/
def hexValChar (c : Char) : Nat :=
  if 48 ≤ c.toNat ∧ c.toNat ≤ 57 then c.toNat - 48
  else if 97 ≤ c.toNat ∧ c.toNat ≤ 102 then c.toNat - 87
  else c.toNat - 55

/-- parseHexPair scans the Go verb %02x: at most two hex digits, at least
one, returning the value and the unscanned remainder. -/
def parseHexPair : List Char → Option (Nat × List Char)
  | [] => none
  | [c] => if isHexDigitChar c then some (hexValChar c, []) else none
  | c1 :: c2 :: rest =>
    if isHexDigitChar c1 then
      if isHexDigitChar c2 then
        some (16 * hexValChar c1 + hexValChar c2, rest)
      else some (hexValChar c1, c2 :: rest)
    else none

/-- sscanfHex3 mirrors fmt.Sscanf(cleanHex, "%02x%02x%02x", &r, &g, &b) in
Client.handleColor of internal/mqtt/client.go: err is nil exactly when all
three verbs scan, and trailing input is not an error. -/
def sscanfHex3 (cs : List Char) : Option (Int × Int × Int) :=
  match parseHexPair cs with
  | none => none
  | some (r, cs1) =>
    match parseHexPair cs1 with
    | none => none
    | some (g, cs2) =>
      match parseHexPair cs2 with
      | none => none
      | some (b, _) => some ((r : Int), (g : Int), (b : Int))

/-- startsWithHash mirrors strings.HasPrefix(payload, "#"). -/
def startsWithHash : List Char → Bool
  | [] => false
  | c :: _ => c = '#'

/-- containsComma mirrors strings.Contains(payload, ","). -/
def containsComma : List Char → Bool
  | [] => false
  | c :: rest => if c = ',' then true else containsComma rest

/-- splitComma mirrors strings.Split(payload, ","): the list of comma-free
segments, with empty segments preserved. -/
def splitComma : List Char → List (List Char)
  | [] => [[]]
  | c :: rest =>
    if c = ',' then [] :: splitComma rest
    else
      match splitComma rest with
      | [] => [[c]]
      | h :: t => (c :: h) :: t

/-- isSpaceChar covers the ASCII whitespace strings.TrimSpace removes (the
Unicode cases do not arise in the modelled payloads). -/
def isSpaceChar (c : Char) : Bool :=
  c = ' ' ∨ c = '\t' ∨ c = '\n' ∨ c = '\r'

/-- trimSpace mirrors strings.TrimSpace on ASCII payload segments. -/
def trimSpace (cs : List Char) : List Char :=
  ((cs.dropWhile isSpaceChar).reverse.dropWhile isSpaceChar).reverse

/-- isDigitChar recognises ASCII decimal digits. -/
def isDigitChar (c : Char) : Bool :=
  48 ≤ c.toNat ∧ c.toNat ≤ 57

/-- digitsVal reads a most-significant-first digit list as a number. -/
def digitsVal (cs : List Char) : Nat :=
  cs.foldl (fun a c => a * 10 + (c.toNat - 48)) 0

/-- atoiOpt mirrors strconv.Atoi on the small payloads at hand: an optional
sign followed by at least one digit and nothing else (overflow of 64-bit int
is not modelled; it cannot occur at the inputs the claims quantify over). -/
def atoiOpt (cs : List Char) : Option Int :=
  match cs with
  | [] => none
  | c :: rest =>
    if c = '-' then
      if rest ≠ [] ∧ rest.all isDigitChar then some (-(digitsVal rest : Int)) else none
    else if c = '+' then
      if rest ≠ [] ∧ rest.all isDigitChar then some ((digitsVal rest : Int)) else none
    else if (c :: rest).all isDigitChar then some ((digitsVal (c :: rest) : Int))
    else none

/-- atoiOrZero mirrors the Go idiom r, _ = strconv.Atoi(s): the error is
ignored and the zero value is kept on failure. -/
def atoiOrZero (cs : List Char) : Int :=
  (atoiOpt cs).getD 0

/-- handleColor mirrors Client.handleColor of internal/mqtt/client.go: the
hex branch is chosen when the payload starts with # or has length exactly 6
(one # is trimmed, then %02x%02x%02x is scanned); otherwise a payload
containing a comma is split and each of exactly three parts is parsed with
strconv.Atoi, errors ignored.  The result is the (r, g, b) triple of the
emitted set-color command, or none when no command is emitted. -/
def handleColor (payload : String) : Option (Int × Int × Int) :=
  let cs := payload.toList
  if startsWithHash cs ∨ cs.length = 6 then
    let clean := if startsWithHash cs then cs.tail else cs
    sscanfHex3 clean
  else if containsComma cs then
    match splitComma cs with
    | [p0, p1, p2] =>
      some (atoiOrZero (trimSpace p0), atoiOrZero (trimSpace p1),
        atoiOrZero (trimSpace p2))
    | _ => none
  else none

/-- decRender renders a number up to 999 in decimal, as Go fmt %d and
JSON marshalling do for the colour components in 0..255. -/
def decRender (n : Nat) : List Char :=
  if n < 10 then [Char.ofNat (48 + n)]
  else if n < 100 then [Char.ofNat (48 + n / 10), Char.ofNat (48 + n % 10)]
  else [Char.ofNat (48 + (n / 100) % 10), Char.ofNat (48 + (n / 10) % 10),
    Char.ofNat (48 + n % 10)]

/-- rgbPayload is the canonical r,g,b wire form of a colour, the same
rendering fmt.Sprintf("%d,%d,%d", r, g, b) produces. -/
def rgbPayload (r g b : Nat) : String :=
  String.mk (decRender r ++ ',' :: (decRender g ++ ',' :: decRender b))

/-- jsonColorPayload is the canonical JSON wire form of a colour,
\x7b"r":R,"g":G,"b":B\x7d, as a Home Assistant style client would publish. -/
def jsonColorPayload (r g b : Nat) : String :=
  String.mk (('\x7b' :: '"' :: 'r' :: '"' :: ':' :: decRender r) ++
    ',' :: (('"' :: 'g' :: '"' :: ':' :: decRender g) ++
      ',' :: ('"' :: 'b' :: '"' :: ':' :: (decRender b ++ ['\x7d']))))

/-- isSuffixLua mirrors strings.HasSuffix(name, ".lua"). -/
def isSuffixLua (cs : List Char) : Bool :=
  match cs.reverse with
  | a :: u :: l :: d :: _ => a = 'a' ∧ u = 'u' ∧ l = 'l' ∧ d = '.'
  | _ => false

/-- dropTrailingSlashes removes trailing path separators, as the first phase
of path.Base does. -/
def dropTrailingSlashes (cs : List Char) : List Char :=
  (cs.reverse.dropWhile (fun c => c = '/')).reverse

/-- lastComponent takes everything after the last path separator. -/
def lastComponent (cs : List Char) : List Char :=
  (cs.reverse.takeWhile (fun c => ¬ (c = '/'))).reverse

/-- filepathBase mirrors filepath.Base on unix paths: "." for the empty
string, "/" for all-separator strings, otherwise the last element with
trailing separators removed. -/
def filepathBase (cs : List Char) : List Char :=
  if cs = [] then ['.']
  else
    let t := dropTrailingSlashes cs
    if t = [] then ['/'] else lastComponent t

/-- hasDotDot mirrors strings.Contains(cleanName, ".."). -/
def hasDotDot : List Char → Bool
  | [] => false
  | [_] => false
  | a :: b :: rest => if a = '.' ∧ b = '.' then true else hasDotDot (b :: rest)

/-- sanitizeFilename mirrors sanitizeFilename of internal/lua/engine.go: the
name must end in .lua; its base must be non-empty, different from ".lua" and
free of "..", and that base is returned. -/
def sanitizeFilename (name : String) : Except String String :=
  let cs := name.toList
  if ¬ isSuffixLua cs then Except.error "filename must end with .lua"
  else
    let clean := filepathBase cs
    if clean = [] ∨ clean = ['.', 'l', 'u', 'a'] ∨ hasDotDot clean then
      Except.error "invalid filename"
    else Except.ok (String.mk clean)

/-- FileSys models the patterns directory as an association list from full
path to file content; a later write shadows an earlier one. -/
def FileSys := List (String × String)

/-- fsWrite mirrors os.WriteFile: create or overwrite the file. -/
def fsWrite (fs : FileSys) (path content : String) : FileSys :=
  (path, content) :: fs

/-- fsRead mirrors os.ReadFile: the current content, or none when absent. -/
def fsRead : FileSys → String → Option String
  | [], _ => none
  | (p, c) :: rest, path => if p = path then some c else fsRead rest path

/-- joinPath mirrors filepath.Join(patternsDir, cleanName) for the sanitized
names at hand (no dot segments survive sanitization). -/
def joinPath (dir name : String) : String :=
  dir ++ "/" ++ name

/-- getPatternPath mirrors Engine.GetPatternPath of internal/lua/engine.go:
sanitize, then join with the configured patterns directory (the mkdir of the
directory has no effect on the modelled mapping). -/
def getPatternPath (dir : String) (name : String) : Except String String :=
  match sanitizeFilename name with
  | Except.error e => Except.error e
  | Except.ok clean => Except.ok (joinPath dir clean)

/-- savePatternCode mirrors Engine.SavePatternCode of internal/lua/engine.go:
resolve the path, then write the file. -/
def savePatternCode (dir : String) (fs : FileSys) (name code : String) :
    Except String FileSys :=
  match getPatternPath dir name with
  | Except.error e => Except.error e
  | Except.ok path => Except.ok (fsWrite fs path code)

/-- getPatternCode mirrors Engine.GetPatternCode of internal/lua/engine.go:
resolve the path, then read the file; a missing file is a read error. -/
def getPatternCode (dir : String) (fs : FileSys) (name : String) :
    Except String String :=
  match getPatternPath dir name with
  | Except.error e => Except.error e
  | Except.ok path =>
    match fsRead fs path with
    | some content => Except.ok content
    | none => Except.error "file does not exist"

/-- buildPowerFrame. Modelled from the spec: the BLE command builders
(Controller.SetPower and friends) are absent from the provided sources, only
their callers appear, so the frame layouts are taken from the spec frame
table.  Power: 7E 04 04 vv 00 vv FF 00 EF with vv = 01 on, 00 off. -/
def buildPowerFrame (isOn : Bool) : List Nat :=
  let vv := if isOn then 1 else 0
  [0x7E, 0x04, 0x04, vv, 0x00, vv, 0xFF, 0x00, 0xEF]

/-- buildColorFrame. Modelled from the spec: Color frame
7E 07 05 03 rr gg bb 10 EF. -/
def buildColorFrame (r g b : Nat) : List Nat :=
  [0x7E, 0x07, 0x05, 0x03, r, g, b, 0x10, 0xEF]

/-- buildBrightnessFrame. Modelled from the spec: Brightness (1..100) frame
7E 04 01 vv FF FF FF 00 EF. -/
def buildBrightnessFrame (v : Nat) : List Nat :=
  [0x7E, 0x04, 0x01, v, 0xFF, 0xFF, 0xFF, 0x00, 0xEF]

/-- buildSpeedFrame. Modelled from the spec: Effect speed (0..100) frame
7E 04 02 vv FF FF FF 00 EF. -/
def buildSpeedFrame (v : Nat) : List Nat :=
  [0x7E, 0x04, 0x02, v, 0xFF, 0xFF, 0xFF, 0x00, 0xEF]

/-- buildEffectFrame. Modelled from the spec: Hardware effect (id 0..28)
frame 7E 05 03 (id+0x80) 03 FF FF 00 EF. -/
def buildEffectFrame (id : Nat) : List Nat :=
  [0x7E, 0x05, 0x03, id + 0x80, 0x03, 0xFF, 0xFF, 0x00, 0xEF]

/-- buildSyncTimeFrame. Modelled from the spec: Sync time frame
7E 07 83 hh mm ss dd FF EF with dd the weekday, Monday 0 .. Sunday 6. -/
def buildSyncTimeFrame (hh mm ss dd : Nat) : List Nat :=
  [0x7E, 0x07, 0x83, hh, mm, ss, dd, 0xFF, 0xEF]

/-- buildRgbOrderFrame. Modelled from the spec: RGB wire order frame
7E 06 81 a b c FF 00 EF. -/
def buildRgbOrderFrame (a b c : Nat) : List Nat :=
  [0x7E, 0x06, 0x81, a, b, c, 0xFF, 0x00, 0xEF]

/-- buildScheduleFrame. Modelled from the spec: On-device schedule frame
7E 08 82 hh mm ss aa (mode or weekdayMask) EF where aa is 00 for on and 01
for off, mode is 0x80 to set and 0x00 to clear, and weekdayMask uses bits
0..6. -/
def buildScheduleFrame (hh mm ss : Nat) (isOn isSet : Bool) (weekdayMask : Nat) :
    List Nat :=
  let aa := if isOn then 0x00 else 0x01
  let mode := if isSet then 0x80 else 0x00
  [0x7E, 0x08, 0x82, hh, mm, ss, aa, Nat.lor mode weekdayMask, 0xEF]

/-- frameWellFormed states the envelope of every BLE write frame: exactly 9
bytes, leading 0x7E, trailing 0xEF, every entry a byte. -/
def frameWellFormed (f : List Nat) : Prop :=
  f.length = 9 ∧ f.head? = some 0x7E ∧ f.getLast? = some 0xEF ∧
    ∀ x ∈ f, x < 256

/-- C1: a set-power or set-color command handled by the orchestrator stops
the running script (StopCurrentPattern is called) if and only if the
extracted payload value differs from the corresponding field of the current
state; on equality no stop is issued, so the script keeps running. -/
theorem c1_preemption_iff :
    (∀ (st : CoreState) (p : Payload),
      Action.stopLua ∈ (handleCommand st { type := CommandType.setPower, payload := p }).2 ↔
        (getBool p "isOn").getD false ≠ st.power) ∧
    (∀ (st : CoreState) (p : Payload),
      Action.stopLua ∈ (handleCommand st { type := CommandType.setColor, payload := p }).2 ↔
        ¬ (st.colorR = (getNum p "r").getD 0 ∧ st.colorG = (getNum p "g").getD 0 ∧
            st.colorB = (getNum p "b").getD 0)) := by
  constructor
  · intro st p
    by_cases h : st.power = (getBool p "isOn").getD false
    · simp [handleCommand, h]
    · simp [handleCommand, h]
      exact fun hc => h hc.symm
  · intro st p
    by_cases h : st.colorR = (getNum p "r").getD 0 ∧ st.colorG = (getNum p "g").getD 0 ∧
        st.colorB = (getNum p "b").getD 0
    · simp [handleCommand, h]
    · simp [handleCommand, h]

/-- C5: a set-brightness or set-speed command handled by the orchestrator
never calls into the Lua engine (neither stop nor run) and publishes no
pattern-changed event, so a running script is unaffected. -/
theorem c5_brightness_speed_never_stop :
    (∀ (st : CoreState) (p : Payload),
      Action.stopLua ∉ (handleCommand st { type := CommandType.setBrightness, payload := p }).2 ∧
      (∀ n, Action.runLua n ∉ (handleCommand st { type := CommandType.setBrightness, payload := p }).2) ∧
      (∀ q, Action.publish EventType.patternChanged q ∉
        (handleCommand st { type := CommandType.setBrightness, payload := p }).2)) ∧
    (∀ (st : CoreState) (p : Payload),
      Action.stopLua ∉ (handleCommand st { type := CommandType.setSpeed, payload := p }).2 ∧
      (∀ n, Action.runLua n ∉ (handleCommand st { type := CommandType.setSpeed, payload := p }).2) ∧
      (∀ q, Action.publish EventType.patternChanged q ∉
        (handleCommand st { type := CommandType.setSpeed, payload := p }).2)) := by
  constructor
  · intro st p
    refine ⟨?_, fun n => ?_, fun q => ?_⟩ <;> simp [handleCommand]
  · intro st p
    refine ⟨?_, fun n => ?_, fun q => ?_⟩ <;> simp [handleCommand]

/-- C3: the Lua engine publishes its pattern lifecycle events under the
payload key "pattern", while the orchestrator listener performs the checked
assertion payload["running"].(string); the assertion therefore always fails,
so on script exit the orchestrator neither clears runningPattern nor emits a
state resync — the claimed behaviour never happens. -/
theorem c3_pattern_event_key_mismatch :
    (∀ (st : CoreState) (name : String),
      listenPatternChanged st (enginePatternPayload name) = (st, [])) ∧
    getStr (enginePatternPayload "") "running" = none ∧
    getStr (enginePatternPayload "") "pattern" = some "" := by
  refine ⟨fun st name => ?_, rfl, rfl⟩
  rfl

/-- C4: on a device-connected event with up=true received in a state where
the link was down, a non-empty runningPattern is re-dispatched to the Lua
engine with the same name, and the connection fields are updated. -/
theorem c4_resume_on_reconnect (st : CoreState) (rssi : Int)
    (hdown : st.isConnected = false) (hpat : st.runningPattern ≠ "") :
    listenDeviceConnected st (bleConnectedPayload true rssi) =
      ({ st with isConnected := true, rssi := rssi },
        [Action.runLua st.runningPattern]) := by
  simp [listenDeviceConnected, bleConnectedPayload, getBool, getInt16, lookupVal,
    hdown, hpat]

/-- Witness for C4 at a concrete state: pattern sunrise.lua resumes when the
link comes back up. -/
theorem c4_resume_on_reconnect_witness :
    listenDeviceConnected
        { isConnected := false, rssi := 0, power := false, colorR := 0, colorG := 0,
          colorB := 0, brightness := 0, speed := 0, runningPattern := "sunrise.lua" }
        (bleConnectedPayload true (-42)) =
      ({ isConnected := true, rssi := -42, power := false, colorR := 0, colorG := 0,
          colorB := 0, brightness := 0, speed := 0, runningPattern := "sunrise.lua" },
        [Action.runLua "sunrise.lua"]) :=
  c4_resume_on_reconnect _ _ rfl (by decide)

/-- C8 counterexample: the orchestrator state object created at startup by
core.NewState() is zero-valued, so it does not carry the claimed defaults
color=(255,255,255), brightness=100, speed=50. -/
theorem c8_counterexample :
    ¬ (coreNewState.power = false ∧ coreNewState.colorR = 255 ∧
        coreNewState.colorG = 255 ∧ coreNewState.colorB = 255 ∧
        coreNewState.brightness = 100 ∧ coreNewState.speed = 50) := by
  decide

/-- C8 amended: the power=false, color=(255,255,255), brightness=100,
speed=50 defaults live in the BLE controller state created by
ble.NewController, while the orchestrator state from core.NewState() starts
with every field zero-valued. -/
theorem c8_amended_defaults :
    coreNewState =
      { isConnected := false, rssi := 0, power := false, colorR := 0, colorG := 0,
        colorB := 0, brightness := 0, speed := 0, runningPattern := "" } ∧
    bleInitialState =
      { isOn := false, r := 255, g := 255, b := 255, brightness := 100, speed := 50 } :=
  ⟨rfl, rfl⟩

/-- cancelPrefixOf is the action prefix the dispatcher always emits first:
cancel the current token and wait up to 2000 ms, when a script is running. -/
def cancelPrefixOf (s : LoopState) : List EngAction :=
  match s.running with
  | some t => [EngAction.cancel t, EngAction.waitDone 2000]
  | none => []

/-- spawnPartOf is the action suffix of a dispatcher iteration: nothing for
stop, one spawn bound to the fresh token for a run command. -/
def spawnPartOf (s : LoopState) : EngCmd → List EngAction
  | EngCmd.stop => []
  | c => [EngAction.spawn s.nextTok c]

/-- C2: each dispatcher iteration first cancels the currently running script
and waits up to 2 s, and only then, for run commands only, spawns a fresh
interpreter bound to a new cancellation token distinct from the cancelled
one; afterwards at most the fresh script is recorded as running. -/
theorem c2_dispatcher_cancel_first (s : LoopState) (cmd : EngCmd) (hwf : loopWF s) :
    (engineStep s cmd).2 = cancelPrefixOf s ++ spawnPartOf s cmd ∧
    (cmd = EngCmd.stop →
      (engineStep s cmd).1.running = none ∧ spawnPartOf s cmd = []) ∧
    (cmd ≠ EngCmd.stop →
      (engineStep s cmd).1.running = some s.nextTok ∧
      spawnPartOf s cmd = [EngAction.spawn s.nextTok cmd] ∧
      ∀ t, s.running = some t → t ≠ s.nextTok) ∧
    loopWF (engineStep s cmd).1 := by
  have fresh : ∀ t, s.running = some t → t ≠ s.nextTok := by
    intro t ht
    exact Nat.ne_of_lt (hwf t ht)
  cases cmd <;> cases hr : s.running <;>
    simp_all [engineStep, spawnPartOf, cancelPrefixOf, loopWF]

/-- Witness for C2 at a concrete dispatcher state: token 3 is cancelled and
a fresh token 7 is issued for the new run-file command. -/
theorem c2_dispatcher_cancel_first_witness :
    (engineStep { running := some 3, nextTok := 7 }
        (EngCmd.runFile "police.lua" "patterns/police.lua")).2 =
      cancelPrefixOf { running := some 3, nextTok := 7 } ++
        spawnPartOf { running := some 3, nextTok := 7 }
          (EngCmd.runFile "police.lua" "patterns/police.lua") ∧
    (EngCmd.runFile "police.lua" "patterns/police.lua" = EngCmd.stop →
      (engineStep { running := some 3, nextTok := 7 }
          (EngCmd.runFile "police.lua" "patterns/police.lua")).1.running = none ∧
      spawnPartOf { running := some 3, nextTok := 7 }
        (EngCmd.runFile "police.lua" "patterns/police.lua") = []) ∧
    (EngCmd.runFile "police.lua" "patterns/police.lua" ≠ EngCmd.stop →
      (engineStep { running := some 3, nextTok := 7 }
          (EngCmd.runFile "police.lua" "patterns/police.lua")).1.running = some 7 ∧
      spawnPartOf { running := some 3, nextTok := 7 }
          (EngCmd.runFile "police.lua" "patterns/police.lua") =
        [EngAction.spawn 7 (EngCmd.runFile "police.lua" "patterns/police.lua")] ∧
      ∀ t, ({ running := some 3, nextTok := 7 } : LoopState).running = some t → t ≠ 7) ∧
    loopWF (engineStep { running := some 3, nextTok := 7 }
        (EngCmd.runFile "police.lua" "patterns/police.lua")).1 :=
  c2_dispatcher_cancel_first { running := some 3, nextTok := 7 }
    (EngCmd.runFile "police.lua" "patterns/police.lua")
    (by intro t ht; simp at ht; subst ht; decide)

/-- writerDownState is a concrete writer state with the link down (zeroed
characteristic handle) and one power frame pending in the queue. -/
def writerDownState : WriterState :=
  { charPresent := false, writeFails := false,
    queue := [[0x7E, 0x04, 0x04, 0x01, 0x00, 0x01, 0xFF, 0x00, 0xEF]] }

/-- C6 counterexample: with the link down, one writer iteration consumes the
queued frame and neither writes it nor keeps it queued — the frame is
silently discarded, so the queue is not preserved across reconnects. -/
theorem c6_counterexample :
    (writerStep writerDownState).1.queue = [] ∧
    (writerStep writerDownState).2 = [WAction.waitToken] := by
  exact ⟨rfl, rfl⟩

/-- C6 amended: a failed characteristic write signals disconnect to the
supervision loop (transitioning the link toward Down), but frames dequeued
while the characteristic is absent are dropped rather than retained: the
iteration consumes a rate-limiter token and discards the frame. -/
theorem c6_amended_write_failure (s : WriterState) (f : List Nat)
    (rest : List (List Nat)) (hq : s.queue = f :: rest) :
    (s.charPresent = true → s.writeFails = true →
      (writerStep s).2 =
        [WAction.waitToken, WAction.writeFailed f, WAction.signalDisconnect] ∧
      (writerStep s).1.queue = rest) ∧
    (s.charPresent = false →
      (writerStep s).2 = [WAction.waitToken] ∧ (writerStep s).1.queue = rest) := by
  constructor
  · intro hc hw
    simp [writerStep, hq, hc, hw]
  · intro hc
    simp [writerStep, hq, hc]

/-- Witness for C6 amended at a concrete failing-write state. -/
theorem c6_amended_write_failure_witness :
    ((({ charPresent := true, writeFails := true, queue := [[1, 2, 3]] } : WriterState).charPresent = true →
      ({ charPresent := true, writeFails := true, queue := [[1, 2, 3]] } : WriterState).writeFails = true →
      (writerStep { charPresent := true, writeFails := true, queue := [[1, 2, 3]] }).2 =
        [WAction.waitToken, WAction.writeFailed [1, 2, 3], WAction.signalDisconnect] ∧
      (writerStep { charPresent := true, writeFails := true, queue := [[1, 2, 3]] }).1.queue = []) ∧
    (({ charPresent := true, writeFails := true, queue := [[1, 2, 3]] } : WriterState).charPresent = false →
      (writerStep { charPresent := true, writeFails := true, queue := [[1, 2, 3]] }).2 = [WAction.waitToken] ∧
      (writerStep { charPresent := true, writeFails := true, queue := [[1, 2, 3]] }).1.queue = [])) :=
  c6_amended_write_failure
    { charPresent := true, writeFails := true, queue := [[1, 2, 3]] } [1, 2, 3] [] rfl

/-- hexDigitUpper yields a hex digit character with the expected value. -/
theorem hexDigitUpper_spec :
    ∀ m, m < 16 → isHexDigitChar (hexDigitUpper m) = true ∧
      hexValChar (hexDigitUpper m) = m := by
  decide

/-- parseHexPair scans exactly the two rendered digits of a byte, leaving
the remainder untouched. -/
theorem parseHexPair_hexByte (n : Nat) (hn : n < 256) (rest : List Char) :
    parseHexPair (hexByteUpper n ++ rest) = some (n, rest) := by
  have hm1 : (n / 16) % 16 < 16 := Nat.mod_lt _ (by omega)
  have hm2 : n % 16 < 16 := Nat.mod_lt _ (by omega)
  have e1 := hexDigitUpper_spec _ hm1
  have e2 := hexDigitUpper_spec _ hm2
  simp [hexByteUpper, parseHexPair, e1.1, e2.1, e1.2, e2.2]
  omega

/-- sscanfHex3 recovers the three bytes from their rendered hex form. -/
theorem sscanfHex3_bytes (r g b : Nat) (hr : r < 256) (hg : g < 256)
    (hb : b < 256) :
    sscanfHex3 (hexByteUpper r ++ (hexByteUpper g ++ hexByteUpper b)) =
      some ((r : Int), (g : Int), (b : Int)) := by
  have h3 := parseHexPair_hexByte b hb []
  rw [List.append_nil] at h3
  simp [sscanfHex3, parseHexPair_hexByte r hr, parseHexPair_hexByte g hg, h3]

/-- decRender produces at least one and at most three characters. -/
theorem decRender_len : ∀ n, n < 256 →
    1 ≤ (decRender n).length ∧ (decRender n).length ≤ 3 := by
  decide

/-- decRender output is free of commas, spaces, signs and hash marks, and
strconv.Atoi inverts it. -/
theorem decRender_clean : ∀ n, n < 256 →
    containsComma (decRender n) = false ∧
    (∀ c ∈ decRender n, isSpaceChar c = false) ∧
    startsWithHash (decRender n) = false ∧
    decRender n ≠ [] ∧
    atoiOpt (decRender n) = some (n : Int) := by
  decide

/-- startsWithHash only inspects the head of a non-empty list. -/
theorem startsWithHash_append (xs ys : List Char) (h : xs ≠ []) :
    startsWithHash (xs ++ ys) = startsWithHash xs := by
  cases xs with
  | nil => exact absurd rfl h
  | cons c t => rfl

/-- containsComma distributes over append. -/
theorem containsComma_append (xs ys : List Char) :
    containsComma (xs ++ ys) = (containsComma xs || containsComma ys) := by
  induction xs with
  | nil => simp [containsComma]
  | cons c t ih =>
    by_cases hc : c = ','
    · simp [containsComma, hc]
    · simp [containsComma, hc, ih]

/-- splitComma on a comma-free list yields that single segment. -/
theorem splitComma_noComma (xs : List Char) (h : containsComma xs = false) :
    splitComma xs = [xs] := by
  induction xs with
  | nil => rfl
  | cons c t ih =>
    have hc : ¬ (c = ',') := by
      intro hcc
      simp [containsComma, hcc] at h
    have ht : containsComma t = false := by
      simpa [containsComma, hc] using h
    simp [splitComma, hc, ih ht]

/-- splitComma peels one comma-free segment off the front. -/
theorem splitComma_append (xs ys : List Char) (h : containsComma xs = false) :
    splitComma (xs ++ ',' :: ys) = xs :: splitComma ys := by
  induction xs with
  | nil => simp [splitComma]
  | cons c t ih =>
    have hc : ¬ (c = ',') := by
      intro hcc
      simp [containsComma, hcc] at h
    have ht : containsComma t = false := by
      simpa [containsComma, hc] using h
    simp [splitComma, hc, ih ht]

/-- trimSpace is the identity on space-free segments. -/
theorem trimSpace_eq_self (cs : List Char)
    (h : ∀ c ∈ cs, isSpaceChar c = false) : trimSpace cs = cs := by
  have h1 : cs.dropWhile isSpaceChar = cs := by
    cases cs with
    | nil => rfl
    | cons c t =>
      have : isSpaceChar c = false := h c (List.mem_cons_self c t)
      simp [List.dropWhile, this]
  have h2 : cs.reverse.dropWhile isSpaceChar = cs.reverse := by
    cases hrev : cs.reverse with
    | nil => rfl
    | cons c t =>
      have hc : c ∈ cs := by
        have hm : c ∈ cs.reverse := by
          rw [hrev]
          exact List.mem_cons_self c t
        simpa using hm
      have : isSpaceChar c = false := h c hc
      simp [List.dropWhile, this]
  simp [trimSpace, h1, h2]

/-- atoiOrZero yields the ignored-error default 0 whenever the first
character can begin no integer. -/
theorem atoiOrZero_head_junk (c : Char) (t : List Char) (h1 : ¬ (c = '-'))
    (h2 : ¬ (c = '+')) (h3 : isDigitChar c = false) :
    atoiOrZero (c :: t) = 0 := by
  simp [atoiOrZero, atoiOpt, h1, h2, h3, List.all_cons]

/-- handleColor takes the comma branch whenever the payload neither starts
with a hash nor has length six but does contain a comma, and then returns
the Atoi values of the three trimmed segments. -/
theorem handleColor_comma (cs : List Char) (h1 : startsWithHash cs = false)
    (h2 : cs.length ≠ 6) (h3 : containsComma cs = true)
    (p0 p1 p2 : List Char) (hsplit : splitComma cs = [p0, p1, p2]) :
    handleColor (String.mk cs) =
      some (atoiOrZero (trimSpace p0), atoiOrZero (trimSpace p1),
        atoiOrZero (trimSpace p2)) := by
  have hne : ¬ (startsWithHash cs = true ∨ cs.length = 6) := by
    intro h
    cases h with
    | inl h => rw [h1] at h; exact Bool.false_ne_true h
    | inr h => exact h2 h
  show (if startsWithHash cs = true ∨ cs.length = 6 then
      sscanfHex3 (if startsWithHash cs = true then cs.tail else cs)
    else if containsComma cs = true then
      match splitComma cs with
      | [q0, q1, q2] =>
        some (atoiOrZero (trimSpace q0), atoiOrZero (trimSpace q1),
          atoiOrZero (trimSpace q2))
      | _ => none
    else none) =
    some (atoiOrZero (trimSpace p0), atoiOrZero (trimSpace p1),
      atoiOrZero (trimSpace p2))
  rw [if_neg hne, if_pos h3, hsplit]

/-- handleColor on the canonical hash-hex rendering of a colour recovers
exactly that colour. -/
theorem handleColor_hexForm (r g b : Nat) (hr : r < 256) (hg : g < 256)
    (hb : b < 256) :
    handleColor (hexColorString (r : Int) (g : Int) (b : Int)) =
      some ((r : Int), (g : Int), (b : Int)) := by
  have hs := sscanfHex3_bytes r g b hr hg hb
  simp [handleColor, hexColorString, String.toList, startsWithHash,
    List.append_assoc, hs]

/-- handleColor on the canonical r,g,b rendering recovers exactly the
encoded colour, provided the payload is not exactly six characters long. -/
theorem handleColor_rgbForm (r g b : Nat) (hr : r < 256) (hg : g < 256)
    (hb : b < 256)
    (hlen : (decRender r).length + (decRender g).length + (decRender b).length + 2 ≠ 6) :
    handleColor (rgbPayload r g b) = some ((r : Int), (g : Int), (b : Int)) := by
  have cr := decRender_clean r hr
  have cg := decRender_clean g hg
  have cb := decRender_clean b hb
  have hhash : startsWithHash (decRender r ++ ',' :: (decRender g ++ ',' :: decRender b)) = false := by
    rw [startsWithHash_append _ _ cr.2.2.2.1]
    exact cr.2.2.1
  have hlen2 : (decRender r ++ ',' :: (decRender g ++ ',' :: decRender b)).length ≠ 6 := by
    simp only [List.length_append, List.length_cons]
    omega
  have hcomma : containsComma (decRender r ++ ',' :: (decRender g ++ ',' :: decRender b)) = true := by
    simp [containsComma_append, containsComma]
  have hsplit : splitComma (decRender r ++ ',' :: (decRender g ++ ',' :: decRender b)) =
      [decRender r, decRender g, decRender b] := by
    rw [splitComma_append _ _ cr.1, splitComma_append _ _ cg.1,
      splitComma_noComma _ cb.1]
  have hmain := handleColor_comma _ hhash hlen2 hcomma _ _ _ hsplit
  rw [trimSpace_eq_self _ cr.2.1, trimSpace_eq_self _ cg.2.1,
    trimSpace_eq_self _ cb.2.1] at hmain
  rw [rgbPayload, hmain]
  simp [atoiOrZero, cr.2.2.2.2, cg.2.2.2.2, cb.2.2.2.2]

/-- handleColor on the canonical JSON rendering of a colour falls into the
comma branch; every Atoi fails on the key-laden segments, so the emitted
command is always (0, 0, 0), whatever colour was encoded. -/
theorem handleColor_jsonForm (r g b : Nat) (hr : r < 256) (hg : g < 256)
    (hb : b < 256) :
    handleColor (jsonColorPayload r g b) = some (0, 0, 0) := by
  have cr := decRender_clean r hr
  have cg := decRender_clean g hg
  have cb := decRender_clean b hb
  have lr := decRender_len r hr
  have lg := decRender_len g hg
  have lb := decRender_len b hb
  have hA : containsComma ('\x7b' :: '"' :: 'r' :: '"' :: ':' :: decRender r) = false := by
    simp [containsComma, cr.1]
  have hB : containsComma ('"' :: 'g' :: '"' :: ':' :: decRender g) = false := by
    simp [containsComma, cg.1]
  have hC : containsComma ('"' :: 'b' :: '"' :: ':' :: (decRender b ++ ['\x7d'])) = false := by
    simp [containsComma, containsComma_append, cb.1]
  have hAs : ∀ c ∈ ('\x7b' :: '"' :: 'r' :: '"' :: ':' :: decRender r),
      isSpaceChar c = false := by
    intro c hc
    simp only [List.mem_cons] at hc
    rcases hc with rfl | rfl | rfl | rfl | rfl | hc
    · decide
    · decide
    · decide
    · decide
    · decide
    · exact cr.2.1 c hc
  have hBs : ∀ c ∈ ('"' :: 'g' :: '"' :: ':' :: decRender g),
      isSpaceChar c = false := by
    intro c hc
    simp only [List.mem_cons] at hc
    rcases hc with rfl | rfl | rfl | rfl | hc
    · decide
    · decide
    · decide
    · decide
    · exact cg.2.1 c hc
  have hCs : ∀ c ∈ ('"' :: 'b' :: '"' :: ':' :: (decRender b ++ ['\x7d'])),
      isSpaceChar c = false := by
    intro c hc
    simp only [List.mem_cons, List.mem_append, List.mem_singleton,
      List.not_mem_nil, or_false] at hc
    rcases hc with rfl | rfl | rfl | rfl | hc | rfl
    · decide
    · decide
    · decide
    · decide
    · exact cb.2.1 c hc
    · decide
  have hhash : startsWithHash (('\x7b' :: '"' :: 'r' :: '"' :: ':' :: decRender r) ++
      ',' :: (('"' :: 'g' :: '"' :: ':' :: decRender g) ++
        ',' :: ('"' :: 'b' :: '"' :: ':' :: (decRender b ++ ['\x7d'])))) = false := by
    rfl
  have hlen2 : (('\x7b' :: '"' :: 'r' :: '"' :: ':' :: decRender r) ++
      ',' :: (('"' :: 'g' :: '"' :: ':' :: decRender g) ++
        ',' :: ('"' :: 'b' :: '"' :: ':' :: (decRender b ++ ['\x7d'])))).length ≠ 6 := by
    simp only [List.length_append, List.length_cons]
    omega
  have hcomma : containsComma (('\x7b' :: '"' :: 'r' :: '"' :: ':' :: decRender r) ++
      ',' :: (('"' :: 'g' :: '"' :: ':' :: decRender g) ++
        ',' :: ('"' :: 'b' :: '"' :: ':' :: (decRender b ++ ['\x7d'])))) = true := by
    simp [containsComma_append, containsComma]
  have hsplit : splitComma (('\x7b' :: '"' :: 'r' :: '"' :: ':' :: decRender r) ++
      ',' :: (('"' :: 'g' :: '"' :: ':' :: decRender g) ++
        ',' :: ('"' :: 'b' :: '"' :: ':' :: (decRender b ++ ['\x7d'])))) =
      [('\x7b' :: '"' :: 'r' :: '"' :: ':' :: decRender r),
        ('"' :: 'g' :: '"' :: ':' :: decRender g),
        ('"' :: 'b' :: '"' :: ':' :: (decRender b ++ ['\x7d']))] := by
    rw [splitComma_append _ _ hA, splitComma_append _ _ hB,
      splitComma_noComma _ hC]
  have hmain := handleColor_comma _ hhash hlen2 hcomma _ _ _ hsplit
  rw [trimSpace_eq_self _ hAs, trimSpace_eq_self _ hBs,
    trimSpace_eq_self _ hCs] at hmain
  rw [jsonColorPayload, hmain]
  rw [atoiOrZero_head_junk '\x7b' _ (by decide) (by decide) (by decide),
    atoiOrZero_head_junk '"' _ (by decide) (by decide) (by decide),
    atoiOrZero_head_junk '"' _ (by decide) (by decide) (by decide)]

/-- C7 counterexample: the JSON colour payload for (255, 0, 0) is parsed by
the comma branch of handleColor and yields the set-color command (0, 0, 0),
not the encoded colour. -/
theorem c7_counterexample :
    handleColor (jsonColorPayload 255 0 0) = some (0, 0, 0) ∧
    (((0 : Int), (0 : Int), (0 : Int)) ≠ ((255 : Int), (0 : Int), (0 : Int))) :=
  ⟨handleColor_jsonForm 255 0 0 (by decide) (by decide) (by decide), by decide⟩

/-- C7 amended: the #RRGGBB form always yields the encoded colour; the
r,g,b form yields the encoded colour whenever the payload is not exactly
six characters (a six-character r,g,b payload is mistaken for bare hex and
dropped); a JSON payload always yields (0, 0, 0) regardless of the encoded
colour, because no JSON branch exists and every Atoi in the comma branch
fails. -/
theorem c7_amended_color_forms :
    (∀ r g b : Nat, r < 256 → g < 256 → b < 256 →
      handleColor (hexColorString (r : Int) (g : Int) (b : Int)) =
        some ((r : Int), (g : Int), (b : Int))) ∧
    (∀ r g b : Nat, r < 256 → g < 256 → b < 256 →
      (decRender r).length + (decRender g).length + (decRender b).length + 2 ≠ 6 →
      handleColor (rgbPayload r g b) = some ((r : Int), (g : Int), (b : Int))) ∧
    (∀ r g b : Nat, r < 256 → g < 256 → b < 256 →
      handleColor (jsonColorPayload r g b) = some (0, 0, 0)) :=
  ⟨handleColor_hexForm, handleColor_rgbForm, handleColor_jsonForm⟩

/-- Witness for C7 amended at concrete colours: hex form for (0, 255, 0),
r,g,b form for (255, 0, 0), JSON form for (12, 34, 56). -/
theorem c7_amended_color_forms_witness :
    handleColor (hexColorString ((0 : Nat) : Int) ((255 : Nat) : Int) ((0 : Nat) : Int)) =
      some (((0 : Nat) : Int), ((255 : Nat) : Int), ((0 : Nat) : Int)) ∧
    handleColor (rgbPayload 255 0 0) =
      some (((255 : Nat) : Int), ((0 : Nat) : Int), ((0 : Nat) : Int)) ∧
    handleColor (jsonColorPayload 12 34 56) = some (0, 0, 0) :=
  ⟨c7_amended_color_forms.1 0 255 0 (by decide) (by decide) (by decide),
    c7_amended_color_forms.2.1 255 0 0 (by decide) (by decide) (by decide) (by decide),
    c7_amended_color_forms.2.2 12 34 56 (by decide) (by decide) (by decide)⟩

/-- Nat.lor with the set-bit 0x80 on a 7-bit mask is plain addition. -/
theorem lor_128_small : ∀ m, m < 128 → Nat.lor 128 m = 128 + m := by
  decide

/-- Nat.lor with the cleared mode byte keeps the 7-bit mask. -/
theorem lor_zero_small : ∀ m, m < 128 → Nat.lor 0 m = m := by
  decide

/-- C9: every command builder is total on its documented argument range and
produces exactly the 9-byte frame of the interface table — power
7E 04 04 vv 00 vv FF 00 EF with vv 01 on / 00 off, colour
7E 07 05 03 rr gg bb 10 EF, brightness 7E 04 01 vv FF FF FF 00 EF, speed
7E 04 02 vv FF FF FF 00 EF, hardware effect 7E 05 03 (id+80) 03 FF FF 00 EF,
sync-time 7E 07 83 hh mm ss dd FF EF, rgb order 7E 06 81 a b c FF 00 EF and
on-device schedule 7E 08 82 hh mm ss aa (mode or mask) EF — and each frame
is a well-formed 9-byte packet of bytes framed by 7E .. EF. -/
theorem c9_frame_encoding :
    (∀ isOn : Bool,
      buildPowerFrame isOn =
        [0x7E, 0x04, 0x04, if isOn then 1 else 0, 0x00, if isOn then 1 else 0,
          0xFF, 0x00, 0xEF] ∧
      frameWellFormed (buildPowerFrame isOn)) ∧
    (∀ r g b : Nat, r < 256 → g < 256 → b < 256 →
      buildColorFrame r g b = [0x7E, 0x07, 0x05, 0x03, r, g, b, 0x10, 0xEF] ∧
      frameWellFormed (buildColorFrame r g b)) ∧
    (∀ v : Nat, 1 ≤ v → v ≤ 100 →
      buildBrightnessFrame v = [0x7E, 0x04, 0x01, v, 0xFF, 0xFF, 0xFF, 0x00, 0xEF] ∧
      frameWellFormed (buildBrightnessFrame v)) ∧
    (∀ v : Nat, v ≤ 100 →
      buildSpeedFrame v = [0x7E, 0x04, 0x02, v, 0xFF, 0xFF, 0xFF, 0x00, 0xEF] ∧
      frameWellFormed (buildSpeedFrame v)) ∧
    (∀ id : Nat, id ≤ 28 →
      buildEffectFrame id =
        [0x7E, 0x05, 0x03, id + 0x80, 0x03, 0xFF, 0xFF, 0x00, 0xEF] ∧
      frameWellFormed (buildEffectFrame id)) ∧
    (∀ hh mm ss dd : Nat, hh < 24 → mm < 60 → ss < 60 → dd < 7 →
      buildSyncTimeFrame hh mm ss dd =
        [0x7E, 0x07, 0x83, hh, mm, ss, dd, 0xFF, 0xEF] ∧
      frameWellFormed (buildSyncTimeFrame hh mm ss dd)) ∧
    (∀ a b c : Nat, a < 256 → b < 256 → c < 256 →
      buildRgbOrderFrame a b c = [0x7E, 0x06, 0x81, a, b, c, 0xFF, 0x00, 0xEF] ∧
      frameWellFormed (buildRgbOrderFrame a b c)) ∧
    (∀ (hh mm ss : Nat) (isOn isSet : Bool) (mask : Nat),
      hh < 24 → mm < 60 → ss < 60 → mask < 128 →
      buildScheduleFrame hh mm ss isOn isSet mask =
        [0x7E, 0x08, 0x82, hh, mm, ss, if isOn then 0x00 else 0x01,
          Nat.lor (if isSet then 0x80 else 0x00) mask, 0xEF] ∧
      frameWellFormed (buildScheduleFrame hh mm ss isOn isSet mask)) := by
  refine ⟨fun isOn => ⟨rfl, ?_⟩, fun r g b hr hg hb => ⟨rfl, ?_⟩,
    fun v h1 h2 => ⟨rfl, ?_⟩, fun v h2 => ⟨rfl, ?_⟩,
    fun id hid => ⟨rfl, ?_⟩, fun hh mm ss dd h1 h2 h3 h4 => ⟨rfl, ?_⟩,
    fun a b c h1 h2 h3 => ⟨rfl, ?_⟩,
    fun hh mm ss isOn isSet mask h1 h2 h3 h4 => ⟨rfl, ?_⟩⟩
  · cases isOn <;> refine ⟨rfl, rfl, rfl, ?_⟩ <;> intro x hx <;>
      simp [buildPowerFrame] at hx <;> omega
  · refine ⟨rfl, rfl, rfl, ?_⟩
    intro x hx
    simp [buildColorFrame] at hx
    omega
  · refine ⟨rfl, rfl, rfl, ?_⟩
    intro x hx
    simp [buildBrightnessFrame] at hx
    omega
  · refine ⟨rfl, rfl, rfl, ?_⟩
    intro x hx
    simp [buildSpeedFrame] at hx
    omega
  · refine ⟨rfl, rfl, rfl, ?_⟩
    intro x hx
    simp [buildEffectFrame] at hx
    omega
  · refine ⟨rfl, rfl, rfl, ?_⟩
    intro x hx
    simp [buildSyncTimeFrame] at hx
    omega
  · refine ⟨rfl, rfl, rfl, ?_⟩
    intro x hx
    simp [buildRgbOrderFrame] at hx
    omega
  · have hb : Nat.lor (if isSet then 0x80 else 0x00) mask < 256 := by
      cases isSet <;> simp [lor_zero_small mask h4, lor_128_small mask h4] <;> omega
    refine ⟨rfl, rfl, rfl, ?_⟩
    intro x hx
    cases isOn <;> simp [buildScheduleFrame] at hx <;>
      rcases hx with rfl | rfl | rfl | rfl | rfl | rfl | rfl | rfl | rfl <;> omega

/-- Witness for C9 at concrete arguments for every builder. -/
theorem c9_frame_encoding_witness :
    (buildPowerFrame true =
      [0x7E, 0x04, 0x04, if true then 1 else 0, 0x00, if true then 1 else 0,
        0xFF, 0x00, 0xEF] ∧
      frameWellFormed (buildPowerFrame true)) ∧
    (buildColorFrame 255 0 0 =
      [0x7E, 0x07, 0x05, 0x03, 255, 0, 0, 0x10, 0xEF] ∧
      frameWellFormed (buildColorFrame 255 0 0)) ∧
    (buildBrightnessFrame 100 =
      [0x7E, 0x04, 0x01, 100, 0xFF, 0xFF, 0xFF, 0x00, 0xEF] ∧
      frameWellFormed (buildBrightnessFrame 100)) ∧
    (buildSpeedFrame 50 = [0x7E, 0x04, 0x02, 50, 0xFF, 0xFF, 0xFF, 0x00, 0xEF] ∧
      frameWellFormed (buildSpeedFrame 50)) ∧
    (buildEffectFrame 28 =
      [0x7E, 0x05, 0x03, 28 + 0x80, 0x03, 0xFF, 0xFF, 0x00, 0xEF] ∧
      frameWellFormed (buildEffectFrame 28)) ∧
    (buildSyncTimeFrame 23 59 59 6 =
      [0x7E, 0x07, 0x83, 23, 59, 59, 6, 0xFF, 0xEF] ∧
      frameWellFormed (buildSyncTimeFrame 23 59 59 6)) ∧
    (buildRgbOrderFrame 0 1 2 =
      [0x7E, 0x06, 0x81, 0, 1, 2, 0xFF, 0x00, 0xEF] ∧
      frameWellFormed (buildRgbOrderFrame 0 1 2)) ∧
    (buildScheduleFrame 7 30 0 true true 127 =
      [0x7E, 0x08, 0x82, 7, 30, 0, if true then 0x00 else 0x01,
        Nat.lor (if true then 0x80 else 0x00) 127, 0xEF] ∧
      frameWellFormed (buildScheduleFrame 7 30 0 true true 127)) :=
  ⟨c9_frame_encoding.1 true,
    c9_frame_encoding.2.1 255 0 0 (by decide) (by decide) (by decide),
    c9_frame_encoding.2.2.1 100 (by decide) (by decide),
    c9_frame_encoding.2.2.2.1 50 (by decide),
    c9_frame_encoding.2.2.2.2.1 28 (by decide),
    c9_frame_encoding.2.2.2.2.2.1 23 59 59 6 (by decide) (by decide) (by decide) (by decide),
    c9_frame_encoding.2.2.2.2.2.2.1 0 1 2 (by decide) (by decide) (by decide),
    c9_frame_encoding.2.2.2.2.2.2.2 7 30 0 true true 127 (by decide) (by decide)
      (by decide) (by decide)⟩

/-- fsRead finds the content most recently written at the same path. -/
theorem fsRead_fsWrite (fs : FileSys) (path content : String) :
    fsRead (fsWrite fs path content) path = some content := by
  simp [fsRead, fsWrite]

/-- C10: a name accepted by sanitizeFilename round-trips — saving code under
it and reading it back yields exactly that code; a name rejected by
sanitizeFilename makes both SavePatternCode and GetPatternCode return the
sanitization error, with the file system untouched. -/
theorem c10_pattern_roundtrip :
    (∀ (dir : String) (fs : FileSys) (name code clean : String),
      sanitizeFilename name = Except.ok clean →
      savePatternCode dir fs name code =
        Except.ok (fsWrite fs (joinPath dir clean) code) ∧
      getPatternCode dir (fsWrite fs (joinPath dir clean) code) name =
        Except.ok code) ∧
    (∀ (dir : String) (fs : FileSys) (name code e : String),
      sanitizeFilename name = Except.error e →
      savePatternCode dir fs name code = Except.error e ∧
      getPatternCode dir fs name = Except.error e) := by
  constructor
  · intro dir fs name code clean h
    refine ⟨?_, ?_⟩
    · simp [savePatternCode, getPatternPath, h]
    · simp [getPatternCode, getPatternPath, h, fsRead_fsWrite]
  · intro dir fs name code e h
    exact ⟨by simp [savePatternCode, getPatternPath, h],
      by simp [getPatternCode, getPatternPath, h]⟩

/-- Witness for C10: the accepted name police.lua round-trips its code, and
the rejected name evil.txt yields the suffix error on both operations. -/
theorem c10_pattern_roundtrip_witness :
    (savePatternCode "patterns" [] "police.lua" "print(1)" =
      Except.ok (fsWrite [] (joinPath "patterns" "police.lua") "print(1)") ∧
    getPatternCode "patterns"
        (fsWrite [] (joinPath "patterns" "police.lua") "print(1)") "police.lua" =
      Except.ok "print(1)") ∧
    (savePatternCode "patterns" [] "evil.txt" "x" =
      Except.error "filename must end with .lua" ∧
    getPatternCode "patterns" [] "evil.txt" =
      Except.error "filename must end with .lua") :=
  ⟨c10_pattern_roundtrip.1 "patterns" [] "police.lua" "print(1)" "police.lua" rfl,
    c10_pattern_roundtrip.2 "patterns" [] "evil.txt" "x"
      "filename must end with .lua" rfl⟩

end Bledom
